import Mathlib

/-!
Verification of the TickerAI agent core: a shallow embedding of the
market-data gateway (`MassiveService`), the three LangChain tool adapters
(stock data, news, company details), the ticker-format gate, and the
bounded tool-calling agent loop (`runStockAnalysis`), together with
theorems about their behaviour.

Conventions of the embedding:
  - Prices/volumes are rationals; timestamps are integers.
  - A JavaScript `throw` is an `Except.error` carrying the error message;
    `try/catch` is a `match` on the `Except` value.
  - A fetch of one provider endpoint is modelled by a `Network` field:
    `.error e` is an HTTP-level failure (the `fetchAPI` wrapper throwing),
    `.ok none` is a success whose body lacks the `results` field, and
    `.ok (some rs)` is a success carrying `results = rs`.
  - JavaScript truthiness quirks that the source relies on are modelled
    explicitly (`jsIndex` for possibly-negative array indexing,
    `jsNumOrNull` for `x || null`, `jsStrOr` for `s || "default"`).
-/

namespace TickerAI

/-- Daily price bar, after the source's `StockAggregate` interface
(fields v, vw, o, c, h, l, t, n). -/
structure StockAggregate where
  v : ℚ
  vw : ℚ
  o : ℚ
  c : ℚ
  h : ℚ
  l : ℚ
  t : ℤ
  n : ℕ
deriving DecidableEq, Repr

instance : Inhabited StockAggregate :=
  ⟨⟨0, 0, 0, 0, 0, 0, 0, 0⟩⟩

/-- One entry of an indicator series, after the source's
`Array<{ timestamp, value }>` results of `getRSI` / `getSMA`. -/
structure IndicatorPoint where
  timestamp : ℤ
  value : ℚ
deriving DecidableEq, Repr

/-- One sentiment insight attached to a news article, after the source's
`insights` entries. -/
structure NewsInsight where
  ticker : String
  sentiment : String
  sentiment_reasoning : String
deriving DecidableEq, Repr

/-- News article, after the source's `NewsArticle` interface (the fields
the adapters consume; `publisherName` stands for `publisher.name`). -/
structure NewsArticle where
  id : String
  publisherName : String
  title : String
  author : Option String
  published_utc : String
  article_url : String
  tickers : List String
  description : Option String
  insights : Option (List NewsInsight)
deriving DecidableEq, Repr

/-- Company profile, after the source's `TickerDetails` interface. -/
structure TickerDetails where
  ticker : String
  name : String
  market : String
  locale : String
  primary_exchange : String
  type : String
  active : Bool
  currency_name : String
  description : Option String
  market_cap : Option ℚ
  total_employees : Option ℕ
  list_date : Option String
deriving DecidableEq, Repr

/-- Behaviour of the external provider, one field per `MassiveService`
endpoint. Each field gives the outcome of the single outbound call the
corresponding method performs: `.error` = HTTP failure thrown by
`fetchAPI`, `.ok none` = missing `results`, `.ok (some _)` = `results`.
The indicator fields take the requested window and limit; news takes the
requested limit. -/
structure Network where
  aggregatesResp : String → Except String (Option (List StockAggregate))
  tickerDetailsResp : String → Except String (Option TickerDetails)
  newsResp : String → ℕ → Except String (Option (List NewsArticle))
  prevCloseResp : String → Except String (Option (List StockAggregate))
  rsiResp : String → ℕ → ℕ → Except String (Option (List IndicatorPoint))
  smaResp : String → ℕ → ℕ → Except String (Option (List IndicatorPoint))

/-- `MassiveService.getStockAggregates`: propagates the fetch failure,
and throws `No stock data available for ...` when `results` is missing
or empty. -/
def getStockAggregates (net : Network) (ticker : String) :
    Except String (List StockAggregate) :=
  match net.aggregatesResp ticker with
  | .error e => .error e
  | .ok none => .error ("No stock data available for " ++ ticker)
  | .ok (some rs) =>
      if rs.length = 0 then .error ("No stock data available for " ++ ticker)
      else .ok rs

/-- `MassiveService.getTickerDetails`: `data.results || null`, with every
fetch failure caught and turned into `null`. -/
def getTickerDetails (net : Network) (ticker : String) : Option TickerDetails :=
  match net.tickerDetailsResp ticker with
  | .error _ => none
  | .ok d => d

/-- `MassiveService.getNews`: `data.results || []`, with every fetch
failure caught and turned into `[]`. -/
def getNews (net : Network) (ticker : String) (limit : ℕ) : List NewsArticle :=
  match net.newsResp ticker limit with
  | .error _ => []
  | .ok none => []
  | .ok (some rs) => rs

/-- `MassiveService.getPreviousClose`: `data.results?.[0] || null`, with
every fetch failure caught and turned into `null`. -/
def getPreviousClose (net : Network) (ticker : String) : Option StockAggregate :=
  match net.prevCloseResp ticker with
  | .error _ => none
  | .ok none => none
  | .ok (some rs) => rs.head?

/-- `MassiveService.getRSI`: `data.results?.values || []`, with every
fetch failure caught and turned into `[]`. -/
def getRSI (net : Network) (ticker : String) (window limit : ℕ) :
    List IndicatorPoint :=
  match net.rsiResp ticker window limit with
  | .error _ => []
  | .ok none => []
  | .ok (some vs) => vs

/-- `MassiveService.getSMA`: `data.results?.values || []`, with every
fetch failure caught and turned into `[]`. -/
def getSMA (net : Network) (ticker : String) (window limit : ℕ) :
    List IndicatorPoint :=
  match net.smaResp ticker window limit with
  | .error _ => []
  | .ok none => []
  | .ok (some vs) => vs

/-- JavaScript array indexing with a possibly negative index:
`l[i]` is `undefined` when `i < 0` or `i ≥ l.length`. -/
def jsIndex (l : List α) (i : ℤ) : Option α :=
  if i < 0 then none else l.get? i.toNat

/-- JavaScript `x || null` on a number that may be `undefined`: both
`undefined` and `0` collapse to `null`. -/
def jsNumOrNull (x : Option ℚ) : Option ℚ :=
  match x with
  | none => none
  | some v => if v = 0 then none else some v

/-- JavaScript `s || d` on a string that may be `undefined`: both
`undefined` and the empty string fall back to the default. -/
def jsStrOr (s : Option String) (d : String) : String :=
  match s with
  | none => d
  | some v => if v = "" then d else v

/-- ASCII uppercasing of one character, the effect of JavaScript
`toUpperCase` on the ASCII range the ticker gate cares about. -/
def upperChar (c : Char) : Char :=
  if 'a' ≤ c && c ≤ 'z' then Char.ofNat (c.toNat - 32) else c

/-- JavaScript `s.toUpperCase()` on ASCII text. -/
def jsToUpperCase (s : String) : String :=
  ⟨s.data.map upperChar⟩

/-- JavaScript `s.trim()`: strip leading and trailing whitespace. -/
def jsTrim (cs : List Char) : List Char :=
  ((cs.dropWhile Char.isWhitespace).reverse.dropWhile Char.isWhitespace).reverse

instance {ε α : Type} [DecidableEq ε] [DecidableEq α] : DecidableEq (Except ε α)
  | .error e₁, .error e₂ =>
      if h : e₁ = e₂ then .isTrue (by rw [h])
      else .isFalse (by intro hh; cases hh; exact h rfl)
  | .error _, .ok _ => .isFalse (by intro h; cases h)
  | .ok _, .error _ => .isFalse (by intro h; cases h)
  | .ok a₁, .ok a₂ =>
      if h : a₁ = a₂ then .isTrue (by rw [h])
      else .isFalse (by intro hh; cases hh; exact h rfl)

/-- Derived metrics record returned by `calculateStockMetrics` (together
with the ticker and timestamp added by the tool, this is the Stock
Metrics Snapshot). -/
structure StockMetrics where
  currentPrice : ℚ
  previousClose : ℚ
  change : ℚ
  changePercent : ℚ
  dayHigh : ℚ
  dayLow : ℚ
  volume : ℚ
  avgVolume : ℚ
  rsi : Option ℚ
  sma10 : Option ℚ
  sma20 : Option ℚ
  priceRangeHigh : ℚ
  priceRangeLow : ℚ
deriving DecidableEq, Repr

/-- `calculateStockMetrics` from `stock-data-tool.ts`. `latest` is
`aggregates[aggregates.length - 1]!` (the non-null assertion is modelled
by `getD default`; every call site guarantees a non-empty list), and
`previous` is `aggregates[aggregates.length - 2]`, which in JavaScript is
`undefined` for a one-element array because the index is negative. The
inter-call pauses of the source are timing only and have no observable
value. `Math.max(...closes)` and `Math.min(...closes)` are folds over the
non-empty close series; the `[]` branches are unreachable at call sites. -/
def calculateStockMetrics (net : Network) (ticker : String)
    (aggregates : List StockAggregate) : StockMetrics :=
  let closes := aggregates.map (fun a => a.c)
  let volumes := aggregates.map (fun a => a.v)
  let latest := (jsIndex aggregates ((aggregates.length : ℤ) - 1)).getD default
  let previous := jsIndex aggregates ((aggregates.length : ℤ) - 2)
  let rsiData := getRSI net ticker 14 1
  let sma10Data := getSMA net ticker 10 1
  let sma20Data := getSMA net ticker 20 1
  { currentPrice := latest.c
    previousClose := match previous with | some p => p.c | none => latest.c
    change := latest.c - (match previous with | some p => p.c | none => latest.c)
    changePercent :=
      match previous with
      | some p => ((latest.c - p.c) / p.c) * 100
      | none => 0
    dayHigh := latest.h
    dayLow := latest.l
    volume := latest.v
    avgVolume := (volumes.foldl (fun a b => a + b) 0) / (volumes.length : ℚ)
    rsi := jsNumOrNull (rsiData.head?.map (fun p => p.value))
    sma10 := jsNumOrNull (sma10Data.head?.map (fun p => p.value))
    sma20 := jsNumOrNull (sma20Data.head?.map (fun p => p.value))
    priceRangeHigh := match closes with | [] => 0 | x :: xs => xs.foldl max x
    priceRangeLow := match closes with | [] => 0 | x :: xs => xs.foldl min x }

/-- Rendering of an optional number inside the serialized snapshot
(`JSON.stringify` prints `null` for null fields). -/
def optNumStr : Option ℚ → String
  | some q => toString q
  | none => "null"

/-- Serialization of the snapshot returned by the stock-data tool. The
JSON punctuation of `JSON.stringify` is not reproduced; the field order
and the rendered values are. -/
def serializeStockData (ticker : String) (m : StockMetrics) : String :=
  "ticker: " ++ ticker ++
  ", currentPrice: " ++ toString m.currentPrice ++
  ", previousClose: " ++ toString m.previousClose ++
  ", change: " ++ toString m.change ++
  ", changePercent: " ++ toString m.changePercent ++
  ", dayHigh: " ++ toString m.dayHigh ++
  ", dayLow: " ++ toString m.dayLow ++
  ", volume: " ++ toString m.volume ++
  ", avgVolume: " ++ toString m.avgVolume ++
  ", rsi: " ++ optNumStr m.rsi ++
  ", sma10: " ++ optNumStr m.sma10 ++
  ", sma20: " ++ optNumStr m.sma20 ++
  ", priceRangeHigh: " ++ toString m.priceRangeHigh ++
  ", priceRangeLow: " ++ toString m.priceRangeLow

/-- Body of the stock-data tool's `func` up to the `catch`: fetch 30 days
of aggregates (a throwing call), derive the metrics, serialize. -/
def stockDataToolBody (net : Network) (ticker : String) : Except String String := do
  let aggregates ← getStockAggregates net (jsToUpperCase ticker)
  let stockData := calculateStockMetrics net (jsToUpperCase ticker) aggregates
  pure (serializeStockData (jsToUpperCase ticker) stockData)

/-- The stock-data tool's `func`: the `try/catch` wrapper around
`stockDataToolBody`. A caught error becomes the documented error text;
the function itself never throws. -/
def stockDataToolFunc (net : Network) (ticker : String) : Except String String :=
  match stockDataToolBody net ticker with
  | .ok s => .ok s
  | .error e => .ok ("Error fetching stock data for " ++ ticker ++ ": " ++ e)

/-- Formatting of one news article for the model, after the source's
`formattedNews` mapping. `toLocaleDateString` is not modelled; the raw
`published_utc` string stands for the rendered date. The source's
misspelling of the default description is preserved. -/
def formatArticle (idx : ℕ) (a : NewsArticle) : String :=
  "number: " ++ toString (idx + 1) ++
  ", title: " ++ a.title ++
  ", publisher: " ++ a.publisherName ++
  ", published: " ++ a.published_utc ++
  ", description: " ++ jsStrOr a.description "No description avaliable." ++
  ", sentiment: " ++
    jsStrOr ((a.insights.getD []).head?.map (fun i => i.sentiment)) "neutral" ++
  ", url: " ++ a.article_url

/-- Serialization of a non-empty news result, after the source's final
`JSON.stringify` (ticker, count, articles in order). -/
def serializeNews (ticker : String) (news : List NewsArticle) : String :=
  "ticker: " ++ ticker ++
  ", newsCount: " ++ toString news.length ++
  ", articles: " ++ String.intercalate "; "
    (news.enum.map (fun p => formatArticle p.1 p.2))

/-- Body of the news tool's `func` up to the `catch`: fetch the news
(never throws at gateway level) and either return the sentinel string for
an empty result or the serialized articles. -/
def newsDataToolBody (net : Network) (ticker : String) (limit : Option ℕ) :
    Except String String := do
  let news := getNews net (jsToUpperCase ticker) (limit.getD 5)
  if news.length = 0 then
    pure ("No recent news for " ++ ticker)
  else
    pure (serializeNews (jsToUpperCase ticker) news)

/-- The news tool's `func`: `try/catch` wrapper around `newsDataToolBody`. -/
def newsDataToolFunc (net : Network) (ticker : String) (limit : Option ℕ) :
    Except String String :=
  match newsDataToolBody net ticker limit with
  | .ok s => .ok s
  | .error e => .ok ("Error fetching news for " ++ ticker ++ ": " ++ e)

/-- Serialization of a found company profile, after the source's
`JSON.stringify` in the company-details tool. -/
def serializeCompanyDetails (d : TickerDetails) : String :=
  "ticker: " ++ d.ticker ++
  ", name: " ++ d.name ++
  ", description: " ++ d.description.getD "No description available" ++
  ", market: " ++ d.market ++
  ", primaryExchange: " ++ d.primary_exchange ++
  ", type: " ++ d.type ++
  ", active: " ++ (if d.active then "true" else "false") ++
  ", marketCap: " ++ (match d.market_cap with | some q => toString q | none => "null") ++
  ", totalEmployees: " ++ (match d.total_employees with | some n => toString n | none => "null") ++
  ", listDate: " ++ d.list_date.getD "null" ++
  ", currency: " ++ d.currency_name

/-- Body of the company-details tool's `func` up to the `catch`. -/
def companyDetailsToolBody (net : Network) (ticker : String) :
    Except String String := do
  let details := getTickerDetails net (jsToUpperCase ticker)
  match details with
  | none => pure ("No company details found for " ++ ticker)
  | some d => pure (serializeCompanyDetails d)

/-- The company-details tool's `func`: `try/catch` wrapper around
`companyDetailsToolBody`. -/
def companyDetailsToolFunc (net : Network) (ticker : String) :
    Except String String :=
  match companyDetailsToolBody net ticker with
  | .ok s => .ok s
  | .error e => .ok ("Error fetching company details for " ++ ticker ++ ": " ++ e)

/-- Argument payload the model supplies for a tool call, after the zod
schemas of the three tools (a required `ticker`; the news tool also has
an optional `limit`). -/
structure ToolArgs where
  ticker : String
  limit : Option ℕ
deriving DecidableEq, Repr

/-- One requested tool invocation of a model response: tool name, the
call identifier (optional — the source guards against a missing id), and
the parsed argument payload. -/
structure ToolCall where
  name : String
  id : Option String
  args : ToolArgs
deriving DecidableEq, Repr

/-- Conversation message, after the LangChain message classes the agent
uses: `system`/`human` carry text; `ai` carries text and the requested
tool calls; `tool` carries the result text and its `tool_call_id`. -/
inductive Message where
  | system : String → Message
  | human : String → Message
  | ai : String → List ToolCall → Message
  | tool : String → String → Message
deriving DecidableEq, Repr

/-- A model response: its text content and its `tool_calls` field
(`response.tool_calls || []` in the source; the empty list stands for a
plain answer). -/
structure ModelResponse where
  content : String
  tool_calls : List ToolCall
deriving DecidableEq, Repr

/-- A registered tool: its name and its `func`. The `Except` result
models a possibly-throwing JavaScript function (`.error` = throw), which
the loop's own `try/catch` guards against. -/
structure Tool where
  name : String
  func : ToolArgs → Except String String

/-- `createStockDataTool`, bound to a provider behaviour. -/
def createStockDataTool (net : Network) : Tool :=
  { name := "get_stock_data"
    func := fun args => stockDataToolFunc net args.ticker }

/-- `createNewsDataTool`, bound to a provider behaviour. -/
def createNewsDataTool (net : Network) : Tool :=
  { name := "get_stock_news"
    func := fun args => newsDataToolFunc net args.ticker args.limit }

/-- `createCompanyDetailsTool`, bound to a provider behaviour. -/
def createCompanyDetailsTool (net : Network) : Tool :=
  { name := "get_company_details"
    func := fun args => companyDetailsToolFunc net args.ticker }

/-- The `tools` array built at the top of `runStockAnalysis`. -/
def agentTools (net : Network) : List Tool :=
  [createStockDataTool net, createNewsDataTool net, createCompanyDetailsTool net]

/-- JavaScript truthiness of `toolCall.id`: present and non-empty. -/
def jsTruthyId (i : Option String) : Bool :=
  match i with
  | none => false
  | some s => !(s == "")

/-- The ToolMessage pushed for one executed call: the tool's output on
success, or `Error: ...` when the tool threw (the loop's inner
`try/catch`), tagged with the call identifier. -/
def mkToolResultMessage (t : Tool) (tc : ToolCall) (cid : String) : Message :=
  match t.func tc.args with
  | .ok r => Message.tool r cid
  | .error e => Message.tool ("Error: " ++ e) cid

/-- The `for (const toolCall of toolCalls)` body of the agent loop, as
the list of ToolMessages it appends, in order: a call whose name matches
no tool, or whose id is missing (or falsy), is skipped (`continue`);
otherwise the tool runs and one ToolMessage is appended. -/
def execToolCalls (tools : List Tool) : List ToolCall → List Message
  | [] => []
  | tc :: rest =>
    match tools.find? (fun t => t.name == tc.name) with
    | none => execToolCalls tools rest
    | some t =>
      match tc.id with
      | none => execToolCalls tools rest
      | some cid =>
          if cid = "" then execToolCalls tools rest
          else mkToolResultMessage t tc cid :: execToolCalls tools rest

/-- Whether the loop executes a requested call (rather than skipping it):
its name resolves to a registered tool and its call identifier is
present (and truthy). -/
def executableCall (tools : List Tool) (tc : ToolCall) : Bool :=
  (tools.find? (fun t => t.name == tc.name)).isSome && jsTruthyId tc.id

/-- The ToolMessage produced for an executable call (the fallback branch
is never reached for calls that pass `executableCall`). -/
def toolResultOf (tools : List Tool) (tc : ToolCall) : Message :=
  match tools.find? (fun t => t.name == tc.name), tc.id with
  | some t, some cid => mkToolResultMessage t tc cid
  | _, _ => Message.tool "" ""

/-- One tool-executing iteration's effect on the message array: push the
model's response (an AI message carrying its tool calls), then push the
tool results in order. -/
def stepMessages (tools : List Tool) (messages : List Message)
    (r : ModelResponse) : List Message :=
  (messages ++ [Message.ai r.content r.tool_calls]) ++ execToolCalls tools r.tool_calls

/-- The `while (iterations < maxIterations)` loop of `runStockAnalysis`,
with the remaining iteration budget as fuel. Each iteration invokes the
model once; a throwing model call propagates (caught only by the outer
wrapper); a response with no tool calls is the final answer; otherwise
the messages grow by `stepMessages` and the loop continues. Exhausted
fuel is the `throw new Error("Max iterations reached")` after the loop. -/
def agentLoopAux (model : List Message → Except String ModelResponse)
    (tools : List Tool) : ℕ → List Message → Except String String
  | 0, _ => .error "Max iterations reached"
  | fuel + 1, messages =>
    match model messages with
    | .error e => .error e
    | .ok r =>
        if r.tool_calls.length = 0 then .ok r.content
        else agentLoopAux model tools fuel (stepMessages tools messages r)

/-- The state of the loop's `messages` array at the moment the loop
stops (final answer, model failure, or cap). Mirrors `agentLoopAux`
step for step, exposing the internal array instead of the result. -/
def agentLoopMessages (model : List Message → Except String ModelResponse)
    (tools : List Tool) : ℕ → List Message → List Message
  | 0, messages => messages
  | fuel + 1, messages =>
    match model messages with
    | .error _ => messages
    | .ok r =>
        if r.tool_calls.length = 0 then messages
        else agentLoopMessages model tools fuel (stepMessages tools messages r)

/-- Number of model invocations the loop performs. Mirrors `agentLoopAux`
step for step: every entered iteration invokes the model exactly once. -/
def loopInvocations (model : List Message → Except String ModelResponse)
    (tools : List Tool) : ℕ → List Message → ℕ
  | 0, _ => 0
  | fuel + 1, messages =>
    match model messages with
    | .error _ => 1
    | .ok r =>
        if r.tool_calls.length = 0 then 1
        else 1 + loopInvocations model tools fuel (stepMessages tools messages r)

/-- First line of the source's system prompt. The remainder of the
prompt is free-form natural-language instruction text that no code path
inspects; it is elided here as it has no bearing on control flow. -/
def SYSTEM_PROMPT : String :=
  "You are TickerAI, an AI-powered stock analysis assistant."

/-- Mapping of one prior-history entry to a message: the source pushes a
HumanMessage for role `user` and an AIMessage (with no tool calls) for
everything else. -/
def historyMessage (p : String × String) : Message :=
  if p.1 = "user" then Message.human p.2 else Message.ai p.2 []

/-- The message array `runStockAnalysis` builds before entering the
loop: system prompt, prior history, current user input. -/
def initialMessages (input : String) (chatHistory : List (String × String)) :
    List Message :=
  Message.system SYSTEM_PROMPT :: (chatHistory.map historyMessage ++ [Message.human input])

/-- The iteration cap (`maxIterations = 5` in the source). -/
def maxIterations : ℕ := 5

/-- `runStockAnalysis`: build the initial messages, run the capped agent
loop, and wrap any escaping error (model failure or exhausted cap) as
`Failed to analyze: ...` — the outer `try/catch` plus rethrow. -/
def runStockAnalysis (model : List Message → Except String ModelResponse)
    (net : Network) (input : String)
    (chatHistory : List (String × String)) : Except String String :=
  match agentLoopAux model (agentTools net) maxIterations
      (initialMessages input chatHistory) with
  | .ok answer => .ok answer
  | .error e => .error ("Failed to analyze: " ++ e)

/-- ASCII uppercase test, the `[A-Z]` character class. -/
def isUpperAZ (c : Char) : Bool :=
  'A' ≤ c && c ≤ 'Z'

/-- The `([.-][A-Z])?$` tail of the ticker regular expression, applied to
what remains after the leading letters: either nothing, or exactly a
separator and one more letter. -/
def tickerSuffixOk : List Char → Bool
  | [] => true
  | [sep, c] => (sep = '.' || sep = '-') && isUpperAZ c
  | _ => false

/-- The test `/^[A-Z]\x7b1,6\x7d([.-][A-Z])?$/.test s` of `handleSubmit`:
the maximal leading run of uppercase letters must have length 1 to 6 and
the remainder must match the optional separator-letter tail. (Regex
backtracking cannot help here: a shorter leading run leaves an uppercase
letter where `[.-]` is required.) -/
def tickerRegexTest (cs : List Char) : Bool :=
  let letters := cs.takeWhile isUpperAZ
  let rest := cs.dropWhile isUpperAZ
  decide (1 ≤ letters.length) && decide (letters.length ≤ 6) && tickerSuffixOk rest

/-- The pre-agent format gate of `handleSubmit`: trim and uppercase the
raw input (`input.trim().toUpperCase()`), then apply the regex test. -/
def validateTickerFormat (input : String) : Bool :=
  tickerRegexTest ((jsTrim input.toList).map upperChar)

/-- Provider behaviour whose every endpoint succeeds with an empty body
(no `results`): aggregates throw `No stock data available`, news and
indicators come back empty, details come back absent. -/
def trivialNet : Network :=
  { aggregatesResp := fun _ => .ok none
    tickerDetailsResp := fun _ => .ok none
    newsResp := fun _ _ => .ok none
    prevCloseResp := fun _ => .ok none
    rsiResp := fun _ _ _ => .ok none
    smaResp := fun _ _ _ => .ok none }

/-- Provider behaviour whose every endpoint fails at the HTTP level with
a 500, the gateway that always fails. -/
def failNet : Network :=
  { aggregatesResp := fun _ => .error "Massive API failed: 500 Internal Server Error"
    tickerDetailsResp := fun _ => .error "Massive API failed: 500 Internal Server Error"
    newsResp := fun _ _ => .error "Massive API failed: 500 Internal Server Error"
    prevCloseResp := fun _ => .error "Massive API failed: 500 Internal Server Error"
    rsiResp := fun _ _ _ => .error "Massive API failed: 500 Internal Server Error"
    smaResp := fun _ _ _ => .error "Massive API failed: 500 Internal Server Error" }

/-- A model that always requests one invocation of a tool name no
adapter carries, and never produces a plain answer. -/
def neverStopModel : List Message → Except String ModelResponse :=
  fun _ => .ok ⟨"", [⟨"made_up_tool", some "call_1", ⟨"AAPL", none⟩⟩]⟩

/-- A model stub that requests the news tool on its first invocation
(the message array still has its initial length, 2) and answers plainly
on the second. -/
def newsThenAnswerModel : List Message → Except String ModelResponse :=
  fun ms =>
    if ms.length ≤ 2 then
      .ok ⟨"", [⟨"get_stock_news", some "call_1", ⟨"AAPL", none⟩⟩]⟩
    else
      .ok ⟨"Here is my final answer", []⟩

/-- A model stub that requests the stock-data tool first and then
answers plainly. -/
def stockThenAnswerModel : List Message → Except String ModelResponse :=
  fun ms =>
    if ms.length ≤ 2 then
      .ok ⟨"", [⟨"get_stock_data", some "call_1", ⟨"AAPL", none⟩⟩]⟩
    else
      .ok ⟨"Analysis despite data failure", []⟩

/-- A model that answers plainly at once. -/
def immediateAnswerModel : List Message → Except String ModelResponse :=
  fun _ => .ok ⟨"done", []⟩

/-- A model response requesting one news-tool invocation. -/
def c2Resp : ModelResponse :=
  ⟨"", [⟨"get_stock_news", some "call_1", ⟨"AAPL", none⟩⟩]⟩

/-- Prior bar of the end-to-end snapshot scenario: close 95. -/
def c6PrevBar : StockAggregate :=
  { v := 0, vw := 0, o := 0, c := 95, h := 0, l := 0, t := 0, n := 0 }

/-- Latest bar of the end-to-end snapshot scenario: close 100. -/
def c6LastBar : StockAggregate :=
  { v := 0, vw := 0, o := 0, c := 100, h := 0, l := 0, t := 0, n := 0 }

/-- Provider stub of the end-to-end snapshot scenario: RSI series [55],
SMA(10) series [98], SMA(20) series [90]. -/
def c6Net : Network :=
  { trivialNet with
    rsiResp := fun _ _ _ => .ok (some [⟨0, 55⟩])
    smaResp := fun _ w _ => if w = 10 then .ok (some [⟨0, 98⟩]) else .ok (some [⟨0, 90⟩]) }

/-- A requested call whose tool name no adapter carries. -/
def badCall : ToolCall := ⟨"made_up_tool", some "call_0", ⟨"AAPL", none⟩⟩

/-- A requested call for the news adapter. -/
def newsCall : ToolCall := ⟨"get_stock_news", some "call_1", ⟨"AAPL", none⟩⟩

/-- A requested call for the company-details adapter. -/
def companyCall : ToolCall := ⟨"get_company_details", some "call_2", ⟨"AAPL", none⟩⟩

/-- Spec-side reading of the ticker format rule, written after the
spec's words: one to six capital letters, optionally followed by a `.`
or `-` separator and one more capital letter. Compared against the
code-side `tickerRegexTest` below. -/
def specTickerFormat (cs : List Char) : Prop :=
  ∃ letters rest, cs = letters ++ rest
    ∧ (∀ c ∈ letters, isUpperAZ c = true)
    ∧ 1 ≤ letters.length ∧ letters.length ≤ 6
    ∧ (rest = [] ∨ ∃ sep c, rest = [sep, c]
        ∧ (sep = '.' ∨ sep = '-') ∧ isUpperAZ c = true)

/-- The tool-execution phase is a filter-map over the requested calls:
exactly the executable calls produce a ToolMessage, one each, in the
order the model emitted them. -/
theorem execToolCalls_eq (tools : List Tool) (calls : List ToolCall) :
    execToolCalls tools calls
      = (calls.filter (executableCall tools)).map (toolResultOf tools) := by
  induction calls with
  | nil => rfl
  | cons tc rest ih =>
    unfold execToolCalls
    cases hfind : tools.find? (fun t => t.name == tc.name) with
    | none =>
        simp [List.filter_cons, executableCall, hfind, ih]
    | some t =>
        cases hid : tc.id with
        | none =>
            simp [List.filter_cons, executableCall, hfind, hid, jsTruthyId, ih]
        | some cid =>
            by_cases hcid : cid = ""
            · simp [List.filter_cons, executableCall, hfind, hid, hcid, jsTruthyId, ih]
            · simp [List.filter_cons, executableCall, hfind, hid, hcid, jsTruthyId,
                toolResultOf, ih]

/-- The ToolMessage built for a call always carries the call identifier
it was given. -/
theorem mkToolResultMessage_id (t : Tool) (tc : ToolCall) (cid : String) :
    ∃ content, mkToolResultMessage t tc cid = Message.tool content cid := by
  unfold mkToolResultMessage
  cases t.func tc.args with
  | ok r => exact ⟨r, rfl⟩
  | error e => exact ⟨"Error: " ++ e, rfl⟩

/-- When the requested calls carry pairwise distinct identifiers, two
calls of the list with the same identifier are the same call. -/
theorem nodup_ids_inj {l : List ToolCall}
    (h : (l.filterMap ToolCall.id).Nodup)
    {tc₁ tc₂ : ToolCall} (h₁ : tc₁ ∈ l) (h₂ : tc₂ ∈ l)
    {cid : String} (e₁ : tc₁.id = some cid) (e₂ : tc₂.id = some cid) :
    tc₁ = tc₂ := by
  induction l with
  | nil => cases h₁
  | cons a as ih =>
    rcases List.mem_cons.mp h₁ with rfl | h₁'
    · rcases List.mem_cons.mp h₂ with rfl | h₂'
      · rfl
      · exfalso
        rw [List.filterMap_cons, e₁] at h
        exact (List.nodup_cons.mp h).1 (List.mem_filterMap.mpr ⟨tc₂, h₂', e₂⟩)
    · rcases List.mem_cons.mp h₂ with rfl | h₂'
      · exfalso
        rw [List.filterMap_cons, e₂] at h
        exact (List.nodup_cons.mp h).1 (List.mem_filterMap.mpr ⟨tc₁, h₁', e₁⟩)
      · refine ih ?_ h₁' h₂'
        rw [List.filterMap_cons] at h
        cases ha : a.id with
        | none => rwa [ha] at h
        | some c => rw [ha] at h; exact (List.nodup_cons.mp h).2

/-- The loop never invokes the model more often than its fuel allows. -/
theorem loopInvocations_le (model : List Message → Except String ModelResponse)
    (tools : List Tool) :
    ∀ fuel messages, loopInvocations model tools fuel messages ≤ fuel := by
  intro fuel
  induction fuel with
  | zero => intro messages; simp [loopInvocations]
  | succ n ih =>
    intro messages
    unfold loopInvocations
    cases model messages with
    | error e => simp
    | ok r =>
        by_cases hlen : r.tool_calls.length = 0
        · simp [hlen]
        · simp only [hlen, if_false]
          have := ih (stepMessages tools messages r)
          omega

/-- Against a model that always answers with at least one tool call, the
loop burns all its fuel, invokes the model exactly `fuel` times, and
fails with the max-iterations error. -/
theorem loop_never_stops (model : List Message → Except String ModelResponse)
    (tools : List Tool)
    (hm : ∀ ms, ∃ r, model ms = Except.ok r ∧ r.tool_calls ≠ []) :
    ∀ fuel messages,
      agentLoopAux model tools fuel messages = Except.error "Max iterations reached"
      ∧ loopInvocations model tools fuel messages = fuel := by
  intro fuel
  induction fuel with
  | zero => intro messages; exact ⟨rfl, rfl⟩
  | succ n ih =>
    intro messages
    obtain ⟨r, hr, hne⟩ := hm messages
    have hlen : ¬ r.tool_calls.length = 0 := by
      simpa [List.length_eq_zero] using hne
    constructor
    · unfold agentLoopAux
      rw [hr]
      simp only [hlen, if_false]
      exact (ih (stepMessages tools messages r)).1
    · unfold loopInvocations
      rw [hr]
      simp only [hlen, if_false]
      rw [(ih (stepMessages tools messages r)).2]
      omega

/-- Against a model whose invocations all succeed, the loop either stops
with an answer or exhausts its fuel: nothing else can escape it. -/
theorem loop_ok_or_cap (model : List Message → Except String ModelResponse)
    (tools : List Tool)
    (hm : ∀ ms, ∃ r, model ms = Except.ok r) :
    ∀ fuel messages,
      (∃ a, agentLoopAux model tools fuel messages = Except.ok a)
      ∨ agentLoopAux model tools fuel messages = Except.error "Max iterations reached" := by
  intro fuel
  induction fuel with
  | zero => intro messages; exact Or.inr rfl
  | succ n ih =>
    intro messages
    obtain ⟨r, hr⟩ := hm messages
    unfold agentLoopAux
    rw [hr]
    by_cases hlen : r.tool_calls.length = 0
    · exact Or.inl ⟨r.content, by simp [hlen]⟩
    · simp only [hlen, if_false]
      exact ih (stepMessages tools messages r)

/-- C1: for every model behaviour the loop invokes the model at most 5
times (the cap), and against a model that never stops requesting tools
the whole operation fails with the max-iterations error exactly at the
cap — 5 invocations, no answer returned. -/
theorem agentLoop_iteration_cap (net : Network) (input : String)
    (hist : List (String × String)) :
    (∀ model, loopInvocations model (agentTools net) maxIterations
        (initialMessages input hist) ≤ maxIterations)
    ∧ (∀ model, (∀ ms, ∃ r, model ms = Except.ok r ∧ r.tool_calls ≠ []) →
        runStockAnalysis model net input hist
            = Except.error "Failed to analyze: Max iterations reached"
        ∧ loopInvocations model (agentTools net) maxIterations
            (initialMessages input hist) = maxIterations) := by
  constructor
  · intro model
    exact loopInvocations_le model (agentTools net) maxIterations _
  · intro model hm
    have h := loop_never_stops model (agentTools net) hm maxIterations
      (initialMessages input hist)
    refine ⟨?_, h.2⟩
    unfold runStockAnalysis
    rw [h.1]
    rfl

theorem agentLoop_iteration_cap_witness :
    runStockAnalysis neverStopModel trivialNet "AAPL" []
        = Except.error "Failed to analyze: Max iterations reached"
    ∧ loopInvocations neverStopModel (agentTools trivialNet) maxIterations
        (initialMessages "AAPL" []) = maxIterations :=
  (agentLoop_iteration_cap trivialNet "AAPL" []).2 neverStopModel
    (fun _ => ⟨_, rfl, by decide⟩)

/-- C2: in a tool-executing iteration the messages grow by the assistant
message carrying the requested calls followed by the tool results of the
executable calls in emitted order, and — when the requested identifiers
are pairwise distinct — every appended ToolMessage's identifier matches
exactly one invocation requested by that preceding assistant message. -/
theorem toolResult_ids_and_order (net : Network) (messages : List Message)
    (r : ModelResponse)
    (hids : (r.tool_calls.filterMap ToolCall.id).Nodup) :
    stepMessages (agentTools net) messages r
      = messages ++ [Message.ai r.content r.tool_calls]
        ++ (r.tool_calls.filter (executableCall (agentTools net))).map
            (toolResultOf (agentTools net))
    ∧ ∀ content cid,
        Message.tool content cid ∈ execToolCalls (agentTools net) r.tool_calls →
        ∃! tc, tc ∈ r.tool_calls ∧ tc.id = some cid := by
  constructor
  · unfold stepMessages
    rw [execToolCalls_eq]
  · intro content cid hmem
    rw [execToolCalls_eq] at hmem
    obtain ⟨tc, htc, heq⟩ := List.mem_map.mp hmem
    have hmemf := List.mem_filter.mp htc
    have hexec := hmemf.2
    unfold executableCall at hexec
    simp only [Bool.and_eq_true, Option.isSome_iff_exists] at hexec
    obtain ⟨⟨t, hfind⟩, htruthy⟩ := hexec
    cases hid : tc.id with
    | none =>
        rw [hid] at htruthy
        simp [jsTruthyId] at htruthy
    | some cid' =>
        have hres : toolResultOf (agentTools net) tc = mkToolResultMessage t tc cid' := by
          unfold toolResultOf
          rw [hfind, hid]
        rw [hres] at heq
        obtain ⟨cont, hmk⟩ := mkToolResultMessage_id t tc cid'
        rw [hmk] at heq
        have hcid : cid' = cid := (Message.tool.injEq _ _ _ _).mp heq |>.2
        refine ⟨tc, ⟨hmemf.1, by rw [hid, hcid]⟩, ?_⟩
        intro tc' h'
        exact nodup_ids_inj hids h'.1 hmemf.1 h'.2 (by rw [hid, hcid])

theorem toolResult_ids_and_order_witness :
    (c2Resp.tool_calls.filterMap ToolCall.id).Nodup
    ∧ (stepMessages (agentTools trivialNet) [] c2Resp
        = [] ++ [Message.ai c2Resp.content c2Resp.tool_calls]
          ++ (c2Resp.tool_calls.filter (executableCall (agentTools trivialNet))).map
              (toolResultOf (agentTools trivialNet))
      ∧ ∀ content cid,
          Message.tool content cid ∈ execToolCalls (agentTools trivialNet) c2Resp.tool_calls →
          ∃! tc, tc ∈ c2Resp.tool_calls ∧ tc.id = some cid) :=
  ⟨by decide, toolResult_ids_and_order trivialNet [] c2Resp (by decide)⟩

/-- C3 (counterexample): in the two-step news scenario the loop's
message array ends at its initial length plus 2, not plus 3 — the final
answer is returned to the caller, never appended as a message. -/
theorem final_length_counterexample :
    ¬ ((agentLoopMessages newsThenAnswerModel (agentTools trivialNet) maxIterations
          (initialMessages "Analyze AAPL" [])).length
        = (initialMessages "Analyze AAPL" []).length + 3) := by decide

/-- C3 (amended): with a model stub that first requests the news tool
and then answers plainly, the loop runs exactly one tool-execution phase
(two model invocations), returns the second response's text, and the
message array ends as the initial messages plus the assistant
tool-request message and one tool result — initial length plus 2. -/
theorem two_step_scenario :
    runStockAnalysis newsThenAnswerModel trivialNet "Analyze AAPL" []
        = Except.ok "Here is my final answer"
    ∧ loopInvocations newsThenAnswerModel (agentTools trivialNet) maxIterations
        (initialMessages "Analyze AAPL" []) = 2
    ∧ agentLoopMessages newsThenAnswerModel (agentTools trivialNet) maxIterations
          (initialMessages "Analyze AAPL" [])
        = initialMessages "Analyze AAPL" []
          ++ [Message.ai "" [⟨"get_stock_news", some "call_1", ⟨"AAPL", none⟩⟩],
              Message.tool "No recent news for AAPL" "call_1"]
    ∧ (agentLoopMessages newsThenAnswerModel (agentTools trivialNet) maxIterations
          (initialMessages "Analyze AAPL" [])).length
        = (initialMessages "Analyze AAPL" []).length + 2 := by decide

/-- C4: each adapter is total — for every provider behaviour (including
an always-failing one) it returns an ok string, never a thrown error —
and a turn whose model invocations all succeed still reaches an answer
or the iteration cap, never an abort from inside tool execution. -/
theorem adapters_never_throw (net : Network) (ticker : String) (limit : Option ℕ)
    (model : List Message → Except String ModelResponse) (input : String)
    (hist : List (String × String))
    (hm : ∀ ms, ∃ r, model ms = Except.ok r) :
    (∃ s, stockDataToolFunc net ticker = Except.ok s)
    ∧ (∃ s, newsDataToolFunc net ticker limit = Except.ok s)
    ∧ (∃ s, companyDetailsToolFunc net ticker = Except.ok s)
    ∧ ((∃ a, runStockAnalysis model net input hist = Except.ok a)
        ∨ runStockAnalysis model net input hist
            = Except.error "Failed to analyze: Max iterations reached") := by
  refine ⟨?_, ?_, ?_, ?_⟩
  · unfold stockDataToolFunc
    cases stockDataToolBody net ticker with
    | ok s => exact ⟨s, rfl⟩
    | error e => exact ⟨_, rfl⟩
  · unfold newsDataToolFunc
    cases newsDataToolBody net ticker limit with
    | ok s => exact ⟨s, rfl⟩
    | error e => exact ⟨_, rfl⟩
  · unfold companyDetailsToolFunc
    cases companyDetailsToolBody net ticker with
    | ok s => exact ⟨s, rfl⟩
    | error e => exact ⟨_, rfl⟩
  · have h := loop_ok_or_cap model (agentTools net) hm maxIterations
      (initialMessages input hist)
    unfold runStockAnalysis
    rcases h with ⟨a, ha⟩ | hcap
    · rw [ha]
      exact Or.inl ⟨a, rfl⟩
    · rw [hcap]
      exact Or.inr rfl

theorem adapters_never_throw_witness :
    (∀ ms, ∃ r, immediateAnswerModel ms = Except.ok r)
    ∧ ((∃ s, stockDataToolFunc failNet "AAPL" = Except.ok s)
      ∧ (∃ s, newsDataToolFunc failNet "AAPL" none = Except.ok s)
      ∧ (∃ s, companyDetailsToolFunc failNet "AAPL" = Except.ok s)
      ∧ ((∃ a, runStockAnalysis immediateAnswerModel failNet "AAPL" [] = Except.ok a)
          ∨ runStockAnalysis immediateAnswerModel failNet "AAPL" []
              = Except.error "Failed to analyze: Max iterations reached")) :=
  ⟨fun _ => ⟨_, rfl⟩,
    adapters_never_throw failNet "AAPL" none immediateAnswerModel "AAPL" []
      (fun _ => ⟨_, rfl⟩)⟩

/-- C5 (counterexample): with a gateway whose aggregates fetch fails at
the HTTP level and a model that requests the stock-data tool and then
answers, the primary aggregates failure is absorbed into a tool-result
string and the caller receives an analysis — not a turn failure. -/
theorem aggregates_failure_absorbed_counterexample :
    getStockAggregates failNet "AAPL"
        = Except.error "Massive API failed: 500 Internal Server Error"
    ∧ stockDataToolFunc failNet "AAPL"
        = Except.ok "Error fetching stock data for AAPL: Massive API failed: 500 Internal Server Error"
    ∧ runStockAnalysis stockThenAnswerModel failNet "Analyze AAPL" []
        = Except.ok "Analysis despite data failure" := by decide

/-- C5 (amended): when the primary aggregates fetch fails (upstream HTTP
failure or empty result set), the stock-data adapter catches the error
and returns the documented error text as an ordinary tool result; the
failure is not surfaced to the caller as a failure of the turn. -/
theorem aggregates_failure_absorbed (net : Network) (ticker : String) (e : String)
    (hfail : getStockAggregates net (jsToUpperCase ticker) = Except.error e) :
    stockDataToolFunc net ticker
      = Except.ok ("Error fetching stock data for " ++ ticker ++ ": " ++ e) := by
  unfold stockDataToolFunc stockDataToolBody
  rw [hfail]
  rfl

theorem aggregates_failure_absorbed_witness :
    getStockAggregates failNet (jsToUpperCase "AAPL")
        = Except.error "Massive API failed: 500 Internal Server Error"
    ∧ stockDataToolFunc failNet "AAPL"
        = Except.ok "Error fetching stock data for AAPL: Massive API failed: 500 Internal Server Error" :=
  ⟨by decide,
    aggregates_failure_absorbed failNet "AAPL"
      "Massive API failed: 500 Internal Server Error" (by decide)⟩

/-- C6: on a two-bar series closing at 95 then 100, with indicator stubs
RSI 55, SMA10 98, SMA20 90, the computed snapshot reports change 5,
changePercent 100 * 5 / 95, rsi 55, sma10 98, sma20 90. -/
theorem snapshot_concrete_values :
    (calculateStockMetrics c6Net "AAPL" [c6PrevBar, c6LastBar]).change = 5
    ∧ (calculateStockMetrics c6Net "AAPL" [c6PrevBar, c6LastBar]).changePercent
        = 100 * 5 / 95
    ∧ (calculateStockMetrics c6Net "AAPL" [c6PrevBar, c6LastBar]).rsi = some 55
    ∧ (calculateStockMetrics c6Net "AAPL" [c6PrevBar, c6LastBar]).sma10 = some 98
    ∧ (calculateStockMetrics c6Net "AAPL" [c6PrevBar, c6LastBar]).sma20 = some 90 := by
  refine ⟨?_, ?_, ?_, ?_, ?_⟩ <;>
    norm_num [calculateStockMetrics, c6Net, trivialNet, getRSI, getSMA, jsIndex,
      jsNumOrNull, c6PrevBar, c6LastBar]

/-- C7: an empty news result yields the sentinel text `No recent news
for X` and an absent company profile yields `No company details found
for X` — human-readable strings, not empty structures. -/
theorem empty_sentinels (net : Network) (ticker : String) (limit : Option ℕ)
    (hnews : getNews net (jsToUpperCase ticker) (limit.getD 5) = [])
    (hdet : getTickerDetails net (jsToUpperCase ticker) = none) :
    newsDataToolFunc net ticker limit
        = Except.ok ("No recent news for " ++ ticker)
    ∧ companyDetailsToolFunc net ticker
        = Except.ok ("No company details found for " ++ ticker) := by
  constructor
  · unfold newsDataToolFunc newsDataToolBody
    rw [hnews]
    rfl
  · unfold companyDetailsToolFunc companyDetailsToolBody
    rw [hdet]
    rfl

theorem empty_sentinels_witness :
    (getNews trivialNet (jsToUpperCase "AAPL") ((none : Option ℕ).getD 5) = []
      ∧ getTickerDetails trivialNet (jsToUpperCase "AAPL") = none)
    ∧ (newsDataToolFunc trivialNet "AAPL" none
        = Except.ok "No recent news for AAPL"
      ∧ companyDetailsToolFunc trivialNet "AAPL"
        = Except.ok "No company details found for AAPL") :=
  ⟨⟨by decide, by decide⟩,
    empty_sentinels trivialNet "AAPL" none (by decide) (by decide)⟩

/-- C8: the code's ticker regex test accepts exactly the spec's format —
one to six capital letters with an optional separator-letter tail — and
the full gate accepts AAPL, BRK.B, BF-A and rejects aapl1, TOOLONG7, the
empty string and 123. -/
theorem ticker_format_validation :
    (∀ cs : List Char, tickerRegexTest cs = true ↔ specTickerFormat cs)
    ∧ validateTickerFormat "AAPL" = true
    ∧ validateTickerFormat "BRK.B" = true
    ∧ validateTickerFormat "BF-A" = true
    ∧ validateTickerFormat "aapl1" = false
    ∧ validateTickerFormat "TOOLONG7" = false
    ∧ validateTickerFormat "" = false
    ∧ validateTickerFormat "123" = false := by
  refine ⟨?_, by decide, by decide, by decide, by decide, by decide, by decide, by decide⟩
  intro cs
  constructor
  · intro h
    unfold tickerRegexTest at h
    simp only [Bool.and_eq_true, decide_eq_true_eq] at h
    obtain ⟨⟨h1, h6⟩, hsuf⟩ := h
    refine ⟨cs.takeWhile isUpperAZ, cs.dropWhile isUpperAZ,
      (List.takeWhile_append_dropWhile _ _).symm,
      (fun c hc => List.mem_takeWhile_imp hc), h1, h6, ?_⟩
    rcases hrest : cs.dropWhile isUpperAZ with _ | ⟨sep, rest'⟩
    · exact Or.inl rfl
    · rcases rest' with _ | ⟨c, rest''⟩
      · rw [hrest] at hsuf
        simp [tickerSuffixOk] at hsuf
      · rcases rest'' with _ | ⟨d, rest'''⟩
        · rw [hrest] at hsuf
          simp only [tickerSuffixOk, Bool.and_eq_true, Bool.or_eq_true,
            decide_eq_true_eq] at hsuf
          exact Or.inr ⟨sep, c, rfl, hsuf.1, hsuf.2⟩
        · rw [hrest] at hsuf
          simp [tickerSuffixOk] at hsuf
  · rintro ⟨letters, rest, rfl, hall, h1, h6, hrest⟩
    have hrhead : rest.takeWhile isUpperAZ = [] ∧ rest.dropWhile isUpperAZ = rest := by
      rcases hrest with rfl | ⟨sep, c, rfl, hsep, hc⟩
      · exact ⟨rfl, rfl⟩
      · have hsepu : isUpperAZ sep = false := by
          rcases hsep with rfl | rfl <;> decide
        constructor
        · simp [List.takeWhile_cons, hsepu]
        · simp [List.dropWhile_cons, hsepu]
    have htake : (letters ++ rest).takeWhile isUpperAZ = letters := by
      rw [List.takeWhile_append_of_pos hall, hrhead.1, List.append_nil]
    have hdrop : (letters ++ rest).dropWhile isUpperAZ = rest := by
      rw [List.dropWhile_append_of_pos hall, hrhead.2]
    unfold tickerRegexTest
    rw [htake, hdrop]
    simp only [Bool.and_eq_true, decide_eq_true_eq]
    refine ⟨⟨h1, h6⟩, ?_⟩
    rcases hrest with rfl | ⟨sep, c, rfl, hsep, hc⟩
    · rfl
    · simp only [tickerSuffixOk, Bool.and_eq_true, Bool.or_eq_true, decide_eq_true_eq]
      exact ⟨hsep, hc⟩

/-- C9: a requested call whose name matches no registered tool, or
whose identifier is absent, is skipped — it contributes no ToolMessage —
while the calls before and after it are still executed in order, and the
loop transitions normally instead of failing the turn. -/
theorem unknown_tool_skipped (net : Network) (pre post : List ToolCall)
    (bad : ToolCall)
    (hbad : executableCall (agentTools net) bad = false) :
    execToolCalls (agentTools net) (pre ++ bad :: post)
      = execToolCalls (agentTools net) pre ++ execToolCalls (agentTools net) post
    ∧ ∀ model messages fuel (r : ModelResponse),
        model messages = Except.ok r → r.tool_calls = pre ++ bad :: post →
        agentLoopAux model (agentTools net) (fuel + 1) messages
          = agentLoopAux model (agentTools net) fuel
              (stepMessages (agentTools net) messages r) := by
  constructor
  · rw [execToolCalls_eq, execToolCalls_eq, execToolCalls_eq,
      List.filter_append, List.filter_cons, hbad]
    simp
  · intro model messages fuel r hr hcalls
    have hne : ¬ r.tool_calls.length = 0 := by
      rw [hcalls]
      simp
    conv_lhs => unfold agentLoopAux
    rw [hr]
    simp only [hne, if_false]

theorem unknown_tool_skipped_witness :
    executableCall (agentTools trivialNet) badCall = false
    ∧ execToolCalls (agentTools trivialNet) ([newsCall] ++ badCall :: [companyCall])
        = execToolCalls (agentTools trivialNet) [newsCall]
          ++ execToolCalls (agentTools trivialNet) [companyCall] :=
  ⟨by decide,
    (unknown_tool_skipped trivialNet [newsCall] [companyCall] badCall (by decide)).1⟩

/-- C10: on a one-bar aggregates series the snapshot degrades gracefully:
previousClose equals the current price, change is 0 and changePercent is
0 (the JavaScript index of the prior bar is negative, hence absent). -/
theorem single_bar_metrics (net : Network) (ticker : String) (b : StockAggregate) :
    (calculateStockMetrics net ticker [b]).previousClose
        = (calculateStockMetrics net ticker [b]).currentPrice
    ∧ (calculateStockMetrics net ticker [b]).change = 0
    ∧ (calculateStockMetrics net ticker [b]).changePercent = 0
    ∧ (calculateStockMetrics net ticker [b]).currentPrice = b.c := by
  have hprev : jsIndex [b] ((([b] : List StockAggregate).length : ℤ) - 2) = none := by
    simp [jsIndex]
  have hlast : jsIndex [b] ((([b] : List StockAggregate).length : ℤ) - 1) = some b := by
    simp [jsIndex]
  unfold calculateStockMetrics
  rw [hprev, hlast]
  simp

end TickerAI
